import Mathlib

/-!
Verification of the conversation-persistence and optimistic-send model of the
chatbot9000 repository.

The embedding is a shallow one:

* `Message` / `Conversation` mirror the domain types of `src/types/index.ts`;
  a JavaScript `Date` is represented by its `getTime()` value, an `Int`
  number of milliseconds since the epoch (negative before 1970).
* `StoredMessage` / `StoredConversation` mirror the persisted shapes, whose
  date fields are strings.
* The `LocalStorageService` operations (`getConversations`,
  `createConversation`, `updateConversationTitle`,
  `removeMessageFromConversation`, `deduplicateMessages`) are translated
  function by function; the durable store is threaded explicitly as the
  parsed list of conversations, and `new Date()` / id-generator calls become
  explicit parameters.
* The optimistic send pipeline (`useAISendMessage` together with the
  callbacks installed by `useConversationManager`) becomes `sendMessage`,
  parametrised by the outcome of the AI-completion collaborator.
* JavaScript string primitives used by this code (`trim`, `substring`,
  number-to-string conversion in the dedup key) are modelled on the
  character list underlying a Lean `String`.
-/

set_option autoImplicit false

namespace Chatbot

/-- Characters removed by the JavaScript `String.prototype.trim` model
(the common whitespace characters: space, tab, line feed, carriage return). -/
def isJsWhitespace (c : Char) : Bool :=
  c == ' ' || c == '\t' || c == '\n' || c == '\r'

/-- Model of JavaScript `s.trim()`: drop leading and trailing whitespace. -/
def jsTrim (s : String) : String :=
  String.mk (((s.data.dropWhile isJsWhitespace).reverse.dropWhile isJsWhitespace).reverse)

/-- Model of JavaScript `s.substring(0, n)`: the first `n` characters. -/
def jsTake (s : String) (n : Nat) : String :=
  String.mk (s.data.take n)

/-- Message role, `'user' | 'assistant'` in `src/types/index.ts`. -/
inductive MessageRole where
  | user
  | assistant
  deriving DecidableEq, Repr

/-- The string a role contributes to the dedup key (the template literal
interpolates the role's string value). -/
def MessageRole.toKey : MessageRole → String
  | .user => "user"
  | .assistant => "assistant"

/-- `Message` of `src/types/index.ts`; `timestamp` is the `Date` as epoch
milliseconds (`getTime()`). -/
structure Message where
  id : String
  content : String
  role : MessageRole
  timestamp : Int
  deriving DecidableEq, Repr

/-- `Conversation` of `src/types/index.ts`, dates as epoch milliseconds. -/
structure Conversation where
  id : String
  title : String
  messages : List Message
  createdAt : Int
  updatedAt : Int
  deriving DecidableEq, Repr

/-- The composite dedup key
`` `${message.role}-${message.content}-${message.timestamp.getTime()}` ``
built by `deduplicateMessages` (part_018 / `src/api/chat.ts`).
`toString` on the `Int` milliseconds matches JavaScript number printing for
integral values, including the leading `-` of negative values. -/
def messageKey (m : Message) : String :=
  m.role.toKey ++ "-" ++ m.content ++ "-" ++ toString m.timestamp

/-- The loop body of `deduplicateMessages`: walk the list keeping a set of
keys already seen (the source uses a `Map<string, boolean>` as a set). -/
def dedupGo (seen : List String) : List Message → List Message
  | [] => []
  | m :: rest =>
    if messageKey m ∈ seen then
      dedupGo seen rest
    else
      m :: dedupGo (messageKey m :: seen) rest

/-- `LocalStorageService.deduplicateMessages` (part_018 lines 129-142,
identical to `ChatApiService.deduplicateMessages` in `src/api/chat.ts`):
keep each message whose composite key has not been seen before. -/
def deduplicateMessages (messages : List Message) : List Message :=
  dedupGo [] messages

/-- The read path `LocalStorageService.getConversations` (part_018 lines
26-45), at the level of the already-parsed payload: reconstructing the
`Date` fields is the identity on the epoch-millisecond instants, and every
conversation's message list goes through `deduplicateMessages`. -/
def loadConversations (stored : List Conversation) : List Conversation :=
  stored.map (fun conv => { conv with messages := deduplicateMessages conv.messages })

/-- `validateMessage` from `utils/common` (part_028): non-blank after trim
and at most 10000 characters. -/
def validateMessage (content : String) : Bool :=
  decide (0 < (jsTrim content).length) && decide (content.length ≤ 10000)

/-- `validateConversationTitle` from `utils/common` (part_028): non-blank
after trim and at most 100 characters after trim. -/
def validateConversationTitle (title : String) : Bool :=
  decide (0 < (jsTrim title).length) && decide ((jsTrim title).length ≤ 100)

/-- The title rule of `LocalStorageService.createConversation` (part_018
lines 56-72). `none` models the absent argument; a present but empty string
is falsy in JavaScript, so `initialMessage ?` sends it to the default
branch as well. -/
def createTitle (initialMessage : Option String) : String :=
  match initialMessage with
  | none => "New Conversation"
  | some s =>
    if s = "" then "New Conversation"
    else if s.length > 50 then jsTake s 47 ++ "..." else s

/-- `LocalStorageService.createConversation` (part_018 lines 56-72):
build the conversation, load the stored list, prepend, save.  `newId` and
`now` stand for `generateId()` and `new Date()`.  Returns the created
conversation and the saved list. -/
def createConversation (stored : List Conversation) (newId : String) (now : Int)
    (initialMessage : Option String) : Conversation × List Conversation :=
  let conversation : Conversation :=
    { id := newId, title := createTitle initialMessage, messages := [],
      createdAt := now, updatedAt := now }
  (conversation, conversation :: loadConversations stored)

/-- `conversations.map(conv => conv.id === id ? updated : conv)`, the
replacement pattern shared by `updateConversationTitle`,
`removeMessageFromConversation` and `useChatStore.updateConversation`. -/
def replaceById (l : List Conversation) (id : String) (updated : Conversation) :
    List Conversation :=
  l.map (fun conv => if conv.id == id then updated else conv)

/-- `LocalStorageService.updateConversationTitle` (part_018 lines 74-94):
load, find by id, throw `'Conversation not found'` when absent, otherwise
set the trimmed title, refresh `updatedAt`, save.  The thrown error is the
`Except.error` case; the result carries the returned conversation and the
saved list. -/
def updateConversationTitle (stored : List Conversation) (id : String) (title : String)
    (now : Int) : Except String (Conversation × List Conversation) :=
  match (loadConversations stored).find? (fun conv => conv.id == id) with
  | none => .error "Conversation not found"
  | some conversation =>
    let updatedConversation : Conversation :=
      { conversation with title := jsTrim title, updatedAt := now }
    .ok (updatedConversation, replaceById (loadConversations stored) id updatedConversation)

/-- `LocalStorageService.removeMessageFromConversation` (part_018 lines
106-127): load, find by id; when absent return `null` without saving (the
second component stays the untouched stored list); otherwise filter the
message out by id, refresh `updatedAt`, save. -/
def removeMessageFromConversation (stored : List Conversation) (conversationId : String)
    (messageId : String) (now : Int) : Option Conversation × List Conversation :=
  match (loadConversations stored).find? (fun conv => conv.id == conversationId) with
  | none => (none, stored)
  | some conversation =>
    let updatedConversation : Conversation :=
      { conversation with
        messages := conversation.messages.filter (fun msg => msg.id != messageId),
        updatedAt := now }
    (some updatedConversation,
      replaceById (loadConversations stored) conversationId updatedConversation)

/-- The React-state part of `useChatStore` (part_018): the in-memory
conversation list plus the error slot set by `setError`. -/
structure StoreState where
  conversations : List Conversation
  error : Option String
  deriving DecidableEq, Repr

/-- `useChatStore.updateConversation` (part_018 lines 188-204): first write
`conversations.map(conv => conv.id === updatedConv.id ? updatedConv : conv)`
to the durable store, then apply the same replacement to the React state.
`writeFails` models `localStorage.setItem` throwing (e.g. quota exceeded),
in which case `saveConversations` rethrows, the catch block records the
error message, and neither the durable list nor the in-memory list is
touched.  Returns the new store state and the durable list. -/
def updateConversationStore (st : StoreState) (stored : List Conversation)
    (updatedConv : Conversation) (writeFails : Bool) (errMsg : String) :
    StoreState × List Conversation :=
  let newList := replaceById st.conversations updatedConv.id updatedConv
  if writeFails then
    ({ st with error := some errMsg }, stored)
  else
    ({ st with conversations := newList }, newList)

/-- Outcome of the AI-completion collaborator for one send. -/
inductive AIOutcome where
  | success (response : String)
  | failure
  deriving DecidableEq, Repr

/-- `addToConversation` of `useConversationManager.ts`: append the message
and refresh `updatedAt`. -/
def addToConversation (message : Message) (conv : Conversation) (now : Int) :
    Conversation :=
  { conv with messages := conv.messages ++ [message], updatedAt := now }

/-- The optimistic send pipeline: `useAISendMessage`'s `mutationFn`,
`onSuccess` and `onError` combined with the callbacks installed by
`useConversationManager` (`addToConversation` via the store's
`updateConversation` for the two appends, `removeMessage` via
`LocalStorageService.removeMessageFromConversation` for the rollback).
`stored` is the durable list (kept in sync with memory along this flow),
`selected` the selected conversation, `uid`/`aid` the `nanoid()` values and
`tu`/`ta`/`tr` the `new Date()` instants of the user message, the assistant
message and the rollback.  Invalid content throws inside `mutationFn`
before the optimistic append, so nothing changes; on failure the tracked
user-message id is removed through the storage service.  Returns the final
durable/in-memory conversation list. -/
def sendMessage (stored : List Conversation) (selected : Conversation) (content : String)
    (uid aid : String) (tu ta tr : Int) (outcome : AIOutcome) : List Conversation :=
  if validateMessage content then
    let userMessage : Message :=
      { id := uid, content := jsTrim content, role := .user, timestamp := tu }
    let conv1 := addToConversation userMessage selected tu
    let stored1 := replaceById stored selected.id conv1
    match outcome with
    | .success response =>
      let aiMessage : Message :=
        { id := aid, content := response, role := .assistant, timestamp := ta }
      let conv2 := addToConversation aiMessage conv1 ta
      replaceById stored1 selected.id conv2
    | .failure =>
      (removeMessageFromConversation stored1 selected.id uid tr).2
  else
    stored

/-- Persisted shape `StoredMessage` of `src/types/index.ts`: the timestamp
is its serialized string form. -/
structure StoredMessage where
  id : String
  content : String
  role : MessageRole
  timestamp : String
  deriving DecidableEq, Repr

/-- Persisted shape `StoredConversation` of `src/types/index.ts`. -/
structure StoredConversation where
  id : String
  title : String
  messages : List StoredMessage
  createdAt : String
  updatedAt : String
  deriving DecidableEq, Repr

/-- The platform date codec: `parse s` is `new Date(s).getTime()` and
`format t` is `Date.prototype.toISOString` of the instant `t`.  Both are
runtime primitives external to the repository, so they are abstracted; the
round-trip theorem takes the property the pair enjoys on valid canonical
payloads as a hypothesis. -/
structure DateCodec where
  parse : String → Int
  format : Int → String

/-- `StorageService.transformStoredConversations` (`src/services/storage.ts`
lines 69-80): spread every field and re-parse the three date positions. -/
def transformStoredConversations (codec : DateCodec) (stored : List StoredConversation) :
    List Conversation :=
  stored.map (fun conv =>
    { id := conv.id, title := conv.title,
      createdAt := codec.parse conv.createdAt,
      updatedAt := codec.parse conv.updatedAt,
      messages := conv.messages.map (fun msg =>
        { id := msg.id, content := msg.content, role := msg.role,
          timestamp := codec.parse msg.timestamp }) })

/-- `StorageService.transformConversationsForStorage`
(`src/services/storage.ts` lines 82-94): spread every field and serialize
the three date positions. -/
def transformConversationsForStorage (codec : DateCodec) (conversations : List Conversation) :
    List StoredConversation :=
  conversations.map (fun conv =>
    { id := conv.id, title := conv.title,
      createdAt := codec.format conv.createdAt,
      updatedAt := codec.format conv.updatedAt,
      messages := conv.messages.map (fun msg =>
        { id := msg.id, content := msg.content, role := msg.role,
          timestamp := codec.format msg.timestamp }) })

/-- Value equality of persisted messages in the sense of the spec: every
plain field is equal and the date field compares equal after parse. -/
def StoredMessage.valueEq (codec : DateCodec) (a b : StoredMessage) : Prop :=
  a.id = b.id ∧ a.content = b.content ∧ a.role = b.role ∧
    codec.parse a.timestamp = codec.parse b.timestamp

/-- Value equality of persisted conversations: plain fields equal, date
fields equal after parse, messages pointwise value-equal. -/
def StoredConversation.valueEq (codec : DateCodec) (a b : StoredConversation) : Prop :=
  a.id = b.id ∧ a.title = b.title ∧
    codec.parse a.createdAt = codec.parse b.createdAt ∧
    codec.parse a.updatedAt = codec.parse b.updatedAt ∧
    List.Forall₂ (StoredMessage.valueEq codec) a.messages b.messages

/-- Value equality of whole persisted payloads (lists of conversations). -/
def payloadValueEq (codec : DateCodec) (xs ys : List StoredConversation) : Prop :=
  List.Forall₂ (StoredConversation.valueEq codec) xs ys

/-- All date strings occurring in one persisted conversation. -/
def StoredConversation.dateStrings (conv : StoredConversation) : List String :=
  conv.createdAt :: conv.updatedAt :: conv.messages.map StoredMessage.timestamp

/-- All date strings occurring in a persisted payload. -/
def payloadDateStrings : List StoredConversation → List String
  | [] => []
  | conv :: rest => conv.dateStrings ++ payloadDateStrings rest

/-- The `(role, content, timestamp-instant)` triple the spec deduplicates by. -/
def tripleOf (m : Message) : MessageRole × String × Int :=
  (m.role, m.content, m.timestamp)

/-- Spec-side description of the dedup step (claim C10's words): keep a
message exactly when its `(role, content, timestamp)` triple has not
occurred earlier in the list. -/
def firstOccGo (seen : List (MessageRole × String × Int)) : List Message → List Message
  | [] => []
  | m :: rest =>
    if tripleOf m ∈ seen then
      firstOccGo seen rest
    else
      m :: firstOccGo (tripleOf m :: seen) rest

/-- Spec-side first-occurrence filter over triples (claim C10's words). -/
def firstOccurrenceFilter (messages : List Message) : List Message :=
  firstOccGo [] messages

/-- One load/save round-trip of the persisted list: saving is the identity
on the parsed values, loading applies the dedup step (part_018 lines
26-54). -/
def roundTripN : Nat → List Conversation → List Conversation
  | 0, l => l
  | n + 1, l => roundTripN n (loadConversations l)

/-! ### Basic lemmas about the dedup loop -/

theorem dedupGo_sublist (seen : List String) (l : List Message) :
    List.Sublist (dedupGo seen l) l := by
  induction l generalizing seen with
  | nil => simp [dedupGo]
  | cons m rest ih =>
    simp only [dedupGo]
    split
    · exact List.Sublist.cons m (ih seen)
    · exact List.Sublist.cons₂ m (ih _)

theorem deduplicateMessages_sublist (l : List Message) :
    List.Sublist (deduplicateMessages l) l :=
  dedupGo_sublist [] l

theorem mem_dedupGo {m : Message} (seen : List String) (l : List Message)
    (h : m ∈ dedupGo seen l) : messageKey m ∉ seen := by
  induction l generalizing seen with
  | nil => simp [dedupGo] at h
  | cons x rest ih =>
    simp only [dedupGo] at h
    split at h
    · exact ih seen h
    · rcases List.mem_cons.mp h with rfl | hm
      · assumption
      · have hk := ih _ hm
        intro hc
        exact hk (List.mem_cons_of_mem _ hc)

theorem dedupGo_pairwise_keys (seen : List String) (l : List Message) :
    (dedupGo seen l).Pairwise (fun a b => messageKey a ≠ messageKey b) := by
  induction l generalizing seen with
  | nil => simp [dedupGo]
  | cons x rest ih =>
    simp only [dedupGo]
    split
    · exact ih seen
    · refine List.Pairwise.cons ?_ (ih _)
      intro b hb hc
      exact mem_dedupGo _ _ hb (hc ▸ List.mem_cons_self _ _)

theorem messageKey_congr {a b : Message} (h1 : a.role = b.role) (h2 : a.content = b.content)
    (h3 : a.timestamp = b.timestamp) : messageKey a = messageKey b := by
  simp [messageKey, h1, h2, h3]

theorem dedupGo_append_single (seen : List String) (l : List Message) (u : Message)
    (h : dedupGo seen l = l) :
    dedupGo seen (l ++ [u]) = l ++ [u] ∨ dedupGo seen (l ++ [u]) = l := by
  induction l generalizing seen with
  | nil =>
    by_cases hk : messageKey u ∈ seen
    · right
      simp [dedupGo, hk]
    · left
      simp [dedupGo, hk]
  | cons m rest ih =>
    have hm : messageKey m ∉ seen := by
      intro hk
      rw [dedupGo, if_pos hk] at h
      have hlen := (dedupGo_sublist seen rest).length_le
      rw [h] at hlen
      simp at hlen
    rw [dedupGo, if_neg hm] at h
    have h' : dedupGo (messageKey m :: seen) rest = rest := by
      injection h with h1 h2
    rw [List.cons_append, dedupGo, if_neg hm]
    rcases ih _ h' with h1 | h1
    · left
      rw [h1]
    · right
      rw [h1]

theorem filter_dedup_append (msgs : List Message) (u : Message)
    (hded : deduplicateMessages msgs = msgs)
    (hfresh : u.id ∉ msgs.map Message.id) :
    (deduplicateMessages (msgs ++ [u])).filter (fun m => m.id != u.id) = msgs := by
  have hself : msgs.filter (fun m => m.id != u.id) = msgs := by
    apply List.filter_eq_self.mpr
    intro m hm
    rw [bne_iff_ne]
    intro he
    exact hfresh (he ▸ List.mem_map_of_mem Message.id hm)
  rcases dedupGo_append_single [] msgs u hded with h | h
  · simp only [deduplicateMessages] at h ⊢
    rw [h, List.filter_append, hself]
    simp
  · simp only [deduplicateMessages] at h ⊢
    rw [h, hself]

/-! ### `find?` over the load and replace operations -/

theorem find?_replaceById (l : List Conversation) (id : String) (updated : Conversation)
    (hid : updated.id = id) :
    (replaceById l id updated).find? (fun conv => conv.id == id)
      = (l.find? (fun conv => conv.id == id)).map (fun _ => updated) := by
  induction l with
  | nil => rfl
  | cons c rest ih =>
    by_cases hc : c.id = id
    · have hcb : (c.id == id) = true := beq_iff_eq.mpr hc
      simp only [replaceById, List.map_cons, if_pos hcb]
      rw [List.find?_cons_of_pos (p := fun (conv : Conversation) => conv.id == id) _
          (beq_iff_eq.mpr hid),
        List.find?_cons_of_pos (p := fun (conv : Conversation) => conv.id == id) _ hcb]
      rfl
    · have hcb : (c.id == id) = false := by
        simpa using hc
      simp only [replaceById, List.map_cons, hcb, Bool.false_eq_true, if_false]
      rw [List.find?_cons_of_neg _ (by simp [hcb]), List.find?_cons_of_neg _ (by simp [hcb])]
      exact ih

theorem find?_loadConversations (stored : List Conversation) (id : String) :
    (loadConversations stored).find? (fun conv => conv.id == id)
      = (stored.find? (fun conv => conv.id == id)).map
          (fun conv => { conv with messages := deduplicateMessages conv.messages }) := by
  simp only [loadConversations]
  rw [List.find?_map]
  rfl

theorem removeMessageFromConversation_found (stored : List Conversation)
    (cid mid : String) (now : Int) (conv u : Conversation)
    (h : (loadConversations stored).find? (fun c => c.id == cid) = some conv)
    (hu : u = { conv with
                messages := conv.messages.filter (fun msg => msg.id != mid),
                updatedAt := now }) :
    removeMessageFromConversation stored cid mid now
      = (some u, replaceById (loadConversations stored) cid u) := by
  subst hu
  simp only [removeMessageFromConversation, h]

theorem removeMessageFromConversation_notFound (stored : List Conversation)
    (cid mid : String) (now : Int)
    (h : (loadConversations stored).find? (fun c => c.id == cid) = none) :
    removeMessageFromConversation stored cid mid now = (none, stored) := by
  simp only [removeMessageFromConversation, h]

/-! ### Claims C1 and C2: the optimistic send pipeline -/

/-- C1: if the AI-completion collaborator fails for a `send(content, conv)`
call, then after the call resolves `conv.messages` contains exactly the
messages it had before the call — the optimistic user message (the one
whose id this send call allocated) is removed and no assistant message is
added.  The hypotheses are the system invariants at the point of the call:
the selected conversation is the one found in the store under its id, its
message list is a fixpoint of the read-path dedup (every in-memory list was
produced by the read path), and the freshly generated `nanoid` id does not
occur among its messages. -/
theorem C1_rollback_completeness (stored : List Conversation) (selected : Conversation)
    (content : String) (uid aid : String) (tu ta tr : Int)
    (hfind : stored.find? (fun conv => conv.id == selected.id) = some selected)
    (hded : deduplicateMessages selected.messages = selected.messages)
    (hfresh : uid ∉ selected.messages.map Message.id) :
    ((sendMessage stored selected content uid aid tu ta tr .failure).find?
        (fun conv => conv.id == selected.id)).map Conversation.messages
      = some selected.messages := by
  by_cases hv : validateMessage content = true
  · simp only [sendMessage, if_pos hv]
    generalize hc1 : addToConversation
      { id := uid, content := jsTrim content, role := MessageRole.user, timestamp := tu }
      selected tu = conv1
    have hid1 : conv1.id = selected.id := by
      rw [← hc1]; rfl
    have hmsgs : conv1.messages = selected.messages ++
        [{ id := uid, content := jsTrim content, role := MessageRole.user, timestamp := tu }] := by
      rw [← hc1]; rfl
    have h2 : (replaceById stored selected.id conv1).find?
        (fun conv => conv.id == selected.id) = some conv1 := by
      rw [find?_replaceById stored selected.id conv1 hid1, hfind]
      rfl
    have h3 : (loadConversations (replaceById stored selected.id conv1)).find?
        (fun conv => conv.id == selected.id)
        = some { conv1 with messages := deduplicateMessages conv1.messages } := by
      rw [find?_loadConversations, h2]
      rfl
    have hfil : (deduplicateMessages conv1.messages).filter (fun msg => msg.id != uid)
        = selected.messages := by
      rw [hmsgs]
      exact filter_dedup_append selected.messages
        { id := uid, content := jsTrim content, role := MessageRole.user, timestamp := tu }
        hded hfresh
    rw [removeMessageFromConversation_found (replaceById stored selected.id conv1)
        selected.id uid tr { conv1 with messages := deduplicateMessages conv1.messages }
        { conv1 with messages := selected.messages, updatedAt := tr } h3 (by rw [← hfil])]
    rw [find?_replaceById (loadConversations (replaceById stored selected.id conv1))
        selected.id { conv1 with messages := selected.messages, updatedAt := tr } hid1, h3]
    rfl
  · simp only [sendMessage, if_neg hv, hfind, Option.map_some]
    rfl

/-- C1 witness: a concrete failing send over a one-conversation store with
one prior message; the rollback restores exactly that message list. -/
theorem C1_rollback_completeness_witness :
    ((sendMessage
        [{ id := "c1", title := "t",
           messages := [{ id := "m0", content := "hi", role := .user, timestamp := 0 }],
           createdAt := 0, updatedAt := 0 }]
        { id := "c1", title := "t",
          messages := [{ id := "m0", content := "hi", role := .user, timestamp := 0 }],
          createdAt := 0, updatedAt := 0 }
        "hello" "u1" "a1" 5 6 7 .failure).find?
        (fun conv => conv.id == "c1")).map Conversation.messages
      = some [{ id := "m0", content := "hi", role := .user, timestamp := 0 }] :=
  C1_rollback_completeness
    [{ id := "c1", title := "t",
       messages := [{ id := "m0", content := "hi", role := .user, timestamp := 0 }],
       createdAt := 0, updatedAt := 0 }]
    { id := "c1", title := "t",
      messages := [{ id := "m0", content := "hi", role := .user, timestamp := 0 }],
      createdAt := 0, updatedAt := 0 }
    "hello" "u1" "a1" 5 6 7 (by decide) (by decide) (by decide)

/-- C2: if the AI-completion collaborator succeeds for a send with valid
content, the conversation's message list afterwards equals its previous
value extended by exactly two entries in order: the user message with the
trimmed input, then the assistant message with the collaborator's
response. -/
theorem C2_success_append_order (stored : List Conversation) (selected : Conversation)
    (content : String) (uid aid : String) (tu ta tr : Int) (response : String)
    (hv : validateMessage content = true)
    (hfind : stored.find? (fun conv => conv.id == selected.id) = some selected) :
    ((sendMessage stored selected content uid aid tu ta tr (.success response)).find?
        (fun conv => conv.id == selected.id)).map Conversation.messages
      = some (selected.messages ++
          [{ id := uid, content := jsTrim content, role := .user, timestamp := tu },
           { id := aid, content := response, role := .assistant, timestamp := ta }]) := by
  simp only [sendMessage, if_pos hv]
  generalize hc1 : addToConversation
    { id := uid, content := jsTrim content, role := MessageRole.user, timestamp := tu }
    selected tu = conv1
  have hid1 : conv1.id = selected.id := by
    rw [← hc1]; rfl
  generalize hc2 : addToConversation
    { id := aid, content := response, role := MessageRole.assistant, timestamp := ta }
    conv1 ta = conv2
  have hid2 : conv2.id = selected.id := by
    rw [← hc2]
    exact hid1
  rw [find?_replaceById (replaceById stored selected.id conv1) selected.id conv2 hid2,
    find?_replaceById stored selected.id conv1 hid1, hfind]
  subst hc2
  subst hc1
  simp [addToConversation]

/-- C2 witness: a concrete successful send appends the trimmed user message
and then the assistant reply. -/
theorem C2_success_append_order_witness :
    ((sendMessage
        [{ id := "c1", title := "t", messages := [], createdAt := 0, updatedAt := 0 }]
        { id := "c1", title := "t", messages := [], createdAt := 0, updatedAt := 0 }
        " Hello " "u1" "a1" 5 6 7 (.success "Hi!")).find?
        (fun conv => conv.id == "c1")).map Conversation.messages
      = some [{ id := "u1", content := "Hello", role := .user, timestamp := 5 },
              { id := "a1", content := "Hi!", role := .assistant, timestamp := 6 }] :=
  C2_success_append_order
    [{ id := "c1", title := "t", messages := [], createdAt := 0, updatedAt := 0 }]
    { id := "c1", title := "t", messages := [], createdAt := 0, updatedAt := 0 }
    " Hello " "u1" "a1" 5 6 7 "Hi!" (by decide) (by decide)

/-! ### Claims C3, C4, C10: the dedup step -/

theorem messageKey_eq_of_tripleOf {a b : Message} (h : tripleOf a = tripleOf b) :
    messageKey a = messageKey b := by
  simp only [tripleOf, Prod.mk.injEq] at h
  exact messageKey_congr h.1 h.2.1 h.2.2

/-- C3: every conversation returned by the load/read path has a message
list in which no two messages carry identical
`(role, content, timestamp-instant)` triples, even when the stored payload
contained duplicates. -/
theorem C3_no_duplicate_triples (stored : List Conversation) (conv : Conversation)
    (h : conv ∈ loadConversations stored) :
    conv.messages.Pairwise (fun a b =>
      ¬(a.role = b.role ∧ a.content = b.content ∧ a.timestamp = b.timestamp)) := by
  obtain ⟨c0, _, rfl⟩ := List.mem_map.mp h
  refine List.Pairwise.imp ?_ (dedupGo_pairwise_keys [] c0.messages)
  intro a b hk hab
  exact hk (messageKey_congr hab.1 hab.2.1 hab.2.2)

/-- C3 witness: loading a payload whose conversation holds the same message
twice yields a duplicate-free list. -/
theorem C3_no_duplicate_triples_witness :
    (Conversation.mk "c" "t"
        [{ id := "i", content := "hello", role := .user, timestamp := 0 }] 0 0).messages.Pairwise
      (fun a b =>
        ¬(a.role = b.role ∧ a.content = b.content ∧ a.timestamp = b.timestamp)) :=
  C3_no_duplicate_triples
    [{ id := "c", title := "t",
       messages := [{ id := "i", content := "hello", role := .user, timestamp := 0 },
                    { id := "i", content := "hello", role := .user, timestamp := 0 }],
       createdAt := 0, updatedAt := 0 }]
    (Conversation.mk "c" "t"
      [{ id := "i", content := "hello", role := .user, timestamp := 0 }] 0 0)
    (by decide)

/-- C4 counterexample: the dedup step keys on `(role, content, timestamp)`,
not on message id, so a stored payload holding two messages with the same
id but different contents keeps both through a load/save round-trip and the
id stays duplicated. -/
theorem C4_counterexample :
    ¬(∀ (stored : List Conversation) (n : Nat) (conv : Conversation),
        conv ∈ roundTripN n stored → (conv.messages.map Message.id).Nodup) := by
  intro h
  have hc := h
    [{ id := "c", title := "t",
       messages := [{ id := "x", content := "a", role := .user, timestamp := 0 },
                    { id := "x", content := "b", role := .user, timestamp := 0 }],
       createdAt := 0, updatedAt := 0 }]
    1
    { id := "c", title := "t",
      messages := [{ id := "x", content := "a", role := .user, timestamp := 0 },
                   { id := "x", content := "b", role := .user, timestamp := 0 }],
      createdAt := 0, updatedAt := 0 }
    (by decide)
  exact absurd hc (by decide)

theorem dedup_id_nodup (msgs : List Message)
    (h : ∀ m1 ∈ msgs, ∀ m2 ∈ msgs, m1.id = m2.id → tripleOf m1 = tripleOf m2) :
    ((deduplicateMessages msgs).map Message.id).Nodup := by
  have hp : (deduplicateMessages msgs).Pairwise (fun a b => a.id ≠ b.id) := by
    refine List.Pairwise.imp_of_mem ?_ (dedupGo_pairwise_keys [] msgs)
    intro a b ha hb hk hid
    exact hk (messageKey_eq_of_tripleOf
      (h a ((deduplicateMessages_sublist msgs).subset ha)
        b ((deduplicateMessages_sublist msgs).subset hb) hid))
  exact List.pairwise_map.mpr hp

theorem loadConversations_preserves_idTriple (stored : List Conversation)
    (h : ∀ conv ∈ stored, ∀ m1 ∈ conv.messages, ∀ m2 ∈ conv.messages,
      m1.id = m2.id → tripleOf m1 = tripleOf m2) :
    ∀ conv ∈ loadConversations stored, ∀ m1 ∈ conv.messages, ∀ m2 ∈ conv.messages,
      m1.id = m2.id → tripleOf m1 = tripleOf m2 := by
  intro conv hconv m1 h1 m2 h2 hid
  obtain ⟨c0, hc0, rfl⟩ := List.mem_map.mp hconv
  exact h c0 hc0 m1 ((deduplicateMessages_sublist c0.messages).subset h1)
    m2 ((deduplicateMessages_sublist c0.messages).subset h2) hid

theorem roundTripN_id_nodup (n : Nat) (stored : List Conversation)
    (h : ∀ conv ∈ stored, ∀ m1 ∈ conv.messages, ∀ m2 ∈ conv.messages,
      m1.id = m2.id → tripleOf m1 = tripleOf m2) :
    ∀ conv ∈ roundTripN (n + 1) stored, (conv.messages.map Message.id).Nodup := by
  induction n generalizing stored with
  | zero =>
    intro conv hconv
    simp only [roundTripN] at hconv
    obtain ⟨c0, hc0, rfl⟩ := List.mem_map.mp hconv
    exact dedup_id_nodup c0.messages (h c0 hc0)
  | succ n ih =>
    intro conv hconv
    simp only [roundTripN] at hconv
    exact ih (loadConversations stored) (loadConversations_preserves_idTriple stored h)
      conv (by simp only [roundTripN]; exact hconv)

/-- C4 amended: the dedup step does not key on ids, so id uniqueness is not
established for arbitrary payloads (see the counterexample); it holds after
at least one load once the stored payload's messages that share an id agree
on their `(role, content, timestamp)` triple, and is preserved by every
further round-trip. -/
theorem C4_amended_id_uniqueness (stored : List Conversation) (n : Nat) (hn : 1 ≤ n)
    (h : ∀ conv ∈ stored, ∀ m1 ∈ conv.messages, ∀ m2 ∈ conv.messages,
      m1.id = m2.id → tripleOf m1 = tripleOf m2) :
    ∀ conv ∈ roundTripN n stored, (conv.messages.map Message.id).Nodup := by
  obtain ⟨m, rfl⟩ : ∃ m, n = m + 1 := ⟨n - 1, by omega⟩
  exact roundTripN_id_nodup m stored h

/-- C4 witness: one round-trip of a well-formed two-message conversation
keeps the ids unique. -/
theorem C4_amended_id_uniqueness_witness :
    ((Conversation.mk "c" "t"
        [{ id := "x", content := "a", role := .user, timestamp := 0 },
         { id := "y", content := "b", role := .user, timestamp := 1 }] 0 0).messages.map
        Message.id).Nodup :=
  C4_amended_id_uniqueness
    [{ id := "c", title := "t",
       messages := [{ id := "x", content := "a", role := .user, timestamp := 0 },
                    { id := "y", content := "b", role := .user, timestamp := 1 }],
       createdAt := 0, updatedAt := 0 }]
    1 (by decide) (by decide)
    (Conversation.mk "c" "t"
      [{ id := "x", content := "a", role := .user, timestamp := 0 },
       { id := "y", content := "b", role := .user, timestamp := 1 }] 0 0)
    (by decide)

/-- C10 counterexample: the composite key string conflates distinct
triples when a timestamp is negative — `(user, "x", -1)` and
`(user, "x-", 1)` both produce the key `user-x--1`, so the second message
is dropped although its triple is distinct and the first-occurrence filter
keeps it. -/
theorem C10_counterexample :
    deduplicateMessages
        [{ id := "1", content := "x", role := .user, timestamp := -1 },
         { id := "2", content := "x-", role := .user, timestamp := 1 }]
      ≠ firstOccurrenceFilter
        [{ id := "1", content := "x", role := .user, timestamp := -1 },
         { id := "2", content := "x-", role := .user, timestamp := 1 }] := by
  decide

theorem dedupGo_eq_firstOccGo (l : List Message)
    (hinj : ∀ m1 ∈ l, ∀ m2 ∈ l, messageKey m1 = messageKey m2 → tripleOf m1 = tripleOf m2)
    (seenK : List String) (seenT : List (MessageRole × String × Int))
    (hsync : ∀ m ∈ l, (messageKey m ∈ seenK ↔ tripleOf m ∈ seenT)) :
    dedupGo seenK l = firstOccGo seenT l := by
  induction l generalizing seenK seenT with
  | nil => rfl
  | cons x rest ih =>
    have hx := hsync x (List.mem_cons_self _ _)
    have hinj' : ∀ m1 ∈ rest, ∀ m2 ∈ rest,
        messageKey m1 = messageKey m2 → tripleOf m1 = tripleOf m2 :=
      fun m1 h1 m2 h2 => hinj m1 (List.mem_cons_of_mem _ h1) m2 (List.mem_cons_of_mem _ h2)
    by_cases hk : messageKey x ∈ seenK
    · simp only [dedupGo, firstOccGo]
      rw [if_pos hk, if_pos (hx.mp hk)]
      exact ih hinj' seenK seenT (fun m hm => hsync m (List.mem_cons_of_mem _ hm))
    · simp only [dedupGo, firstOccGo]
      rw [if_neg hk, if_neg (fun ht => hk (hx.mpr ht))]
      congr 1
      refine ih hinj' _ _ ?_
      intro m hm
      constructor
      · intro hmk
        rcases List.mem_cons.mp hmk with heq | hin
        · exact List.mem_cons.mpr (Or.inl
            (hinj m (List.mem_cons_of_mem _ hm) x (List.mem_cons_self _ _) heq))
        · exact List.mem_cons.mpr (Or.inr ((hsync m (List.mem_cons_of_mem _ hm)).mp hin))
      · intro hmt
        rcases List.mem_cons.mp hmt with heq | hin
        · exact List.mem_cons.mpr (Or.inl (messageKey_eq_of_tripleOf heq))
        · exact List.mem_cons.mpr (Or.inr ((hsync m (List.mem_cons_of_mem _ hm)).mpr hin))

/-- C10 amended: provided no two messages of the list with distinct
`(role, content, timestamp)` triples collide on the composite key string
(collisions require a negative timestamp, as in the counterexample), the
read-path dedup returns exactly the first-occurrence subsequence over
triples: the earliest duplicate is kept, every distinct triple is retained,
and relative order is preserved. -/
theorem C10_amended_first_occurrence (msgs : List Message)
    (hinj : ∀ m1 ∈ msgs, ∀ m2 ∈ msgs,
      messageKey m1 = messageKey m2 → tripleOf m1 = tripleOf m2) :
    deduplicateMessages msgs = firstOccurrenceFilter msgs :=
  dedupGo_eq_firstOccGo msgs hinj [] [] (fun m _ => by simp)

/-- C10 witness: on a list with two distinct-id copies of one triple and a
fresh triple, the dedup equals the first-occurrence filter. -/
theorem C10_amended_first_occurrence_witness :
    deduplicateMessages
        [{ id := "1", content := "x", role := .user, timestamp := 0 },
         { id := "2", content := "x", role := .user, timestamp := 0 },
         { id := "3", content := "y", role := .assistant, timestamp := 4 }]
      = firstOccurrenceFilter
        [{ id := "1", content := "x", role := .user, timestamp := 0 },
         { id := "2", content := "x", role := .user, timestamp := 0 },
         { id := "3", content := "y", role := .assistant, timestamp := 4 }] :=
  C10_amended_first_occurrence
    [{ id := "1", content := "x", role := .user, timestamp := 0 },
     { id := "2", content := "x", role := .user, timestamp := 0 },
     { id := "3", content := "y", role := .assistant, timestamp := 4 }]
    (by decide)

/-! ### Claims C5 and C6: title update and message removal -/

theorem updateConversationTitle_found (stored : List Conversation) (id title : String)
    (now : Int) (conv u : Conversation)
    (h : (loadConversations stored).find? (fun c => c.id == id) = some conv)
    (hu : u = { conv with title := jsTrim title, updatedAt := now }) :
    updateConversationTitle stored id title now
      = .ok (u, replaceById (loadConversations stored) id u) := by
  subst hu
  simp only [updateConversationTitle, h]

theorem updateConversationTitle_notFound (stored : List Conversation) (id title : String)
    (now : Int)
    (h : (loadConversations stored).find? (fun c => c.id == id) = none) :
    updateConversationTitle stored id title now = .error "Conversation not found" := by
  simp only [updateConversationTitle, h]

/-- C5 counterexample: renaming an existing conversation to the blank title
`"   "` — invalid per `validateConversationTitle` — is not rejected with a
validation error; the operation succeeds and stores the empty trimmed
title. -/
theorem C5_counterexample :
    validateConversationTitle "   " = false ∧
    updateConversationTitle
        [{ id := "c1", title := "old", messages := [], createdAt := 0, updatedAt := 0 }]
        "c1" "   " 5
      = .ok ({ id := "c1", title := "", messages := [], createdAt := 0, updatedAt := 5 },
             [{ id := "c1", title := "", messages := [], createdAt := 0, updatedAt := 5 }]) :=
  ⟨rfl, rfl⟩

/-- C5 amended: `updateConversationTitle(id, title)` fails with the
not-found error when no conversation has the id; when it exists the trimmed
title is set unconditionally — no validation against emptiness or the
100-character bound happens — `updatedAt` is refreshed and the list
persisted. -/
theorem C5_amended_title_update (stored : List Conversation) (id title : String) (now : Int) :
    ((loadConversations stored).find? (fun c => c.id == id) = none →
      updateConversationTitle stored id title now = .error "Conversation not found") ∧
    (∀ conv, (loadConversations stored).find? (fun c => c.id == id) = some conv →
      updateConversationTitle stored id title now
        = .ok ({ conv with title := jsTrim title, updatedAt := now },
               replaceById (loadConversations stored) id
                 { conv with title := jsTrim title, updatedAt := now })) := by
  constructor
  · intro h
    exact updateConversationTitle_notFound stored id title now h
  · intro conv h
    exact updateConversationTitle_found stored id title now conv _ h rfl

/-- C5 witness: the not-found branch on an empty store; the rename branch
trims the title and refreshes `updatedAt`. -/
theorem C5_amended_title_update_witness :
    updateConversationTitle ([] : List Conversation) "c1" "T" 5
      = .error "Conversation not found" ∧
    updateConversationTitle
        [{ id := "c1", title := "old", messages := [], createdAt := 0, updatedAt := 0 }]
        "c1" " New " 5
      = .ok ({ id := "c1", title := "New", messages := [], createdAt := 0, updatedAt := 5 },
             [{ id := "c1", title := "New", messages := [], createdAt := 0, updatedAt := 5 }]) := by
  constructor
  · exact (C5_amended_title_update [] "c1" "T" 5).1 rfl
  · exact (C5_amended_title_update
      [{ id := "c1", title := "old", messages := [], createdAt := 0, updatedAt := 0 }]
      "c1" " New " 5).2
      { id := "c1", title := "old", messages := [], createdAt := 0, updatedAt := 0 } rfl

/-- C6 counterexample: removing an absent message id from an existing
conversation is not a no-op — the conversation's `updatedAt` is refreshed
to the call instant and the changed list is persisted. -/
theorem C6_counterexample :
    ("absent" ∉
      ([{ id := "m0", content := "hi", role := MessageRole.user, timestamp := 0 }].map
        Message.id)) ∧
    (removeMessageFromConversation
        [{ id := "c1", title := "t",
           messages := [{ id := "m0", content := "hi", role := .user, timestamp := 0 }],
           createdAt := 0, updatedAt := 0 }]
        "c1" "absent" 5).1.map Conversation.updatedAt = some 5 ∧
    (removeMessageFromConversation
        [{ id := "c1", title := "t",
           messages := [{ id := "m0", content := "hi", role := .user, timestamp := 0 }],
           createdAt := 0, updatedAt := 0 }]
        "c1" "absent" 5).2
      ≠ [{ id := "c1", title := "t",
           messages := [{ id := "m0", content := "hi", role := .user, timestamp := 0 }],
           createdAt := 0, updatedAt := 0 }] := by
  decide

/-- C6 amended: `removeMessage` removes every message with the matching id
from the found conversation's list, refreshes `updatedAt` and persists; it
is a no-op when the conversation id is absent (it returns `null` and does
not save); and when the conversation exists but the message id is absent,
the message list is unchanged yet `updatedAt` is still refreshed and the
list persisted. -/
theorem C6_amended_remove_message (stored : List Conversation) (cid mid : String) (now : Int) :
    ((loadConversations stored).find? (fun c => c.id == cid) = none →
      removeMessageFromConversation stored cid mid now = (none, stored)) ∧
    (∀ conv, (loadConversations stored).find? (fun c => c.id == cid) = some conv →
      removeMessageFromConversation stored cid mid now
        = (some { conv with
                  messages := conv.messages.filter (fun msg => msg.id != mid),
                  updatedAt := now },
           replaceById (loadConversations stored) cid
             { conv with
               messages := conv.messages.filter (fun msg => msg.id != mid),
               updatedAt := now })) ∧
    (∀ conv, (loadConversations stored).find? (fun c => c.id == cid) = some conv →
      mid ∉ conv.messages.map Message.id →
      removeMessageFromConversation stored cid mid now
        = (some { conv with updatedAt := now },
           replaceById (loadConversations stored) cid { conv with updatedAt := now })) := by
  refine ⟨removeMessageFromConversation_notFound stored cid mid now, ?_, ?_⟩
  · intro conv h
    exact removeMessageFromConversation_found stored cid mid now conv _ h rfl
  · intro conv h hmid
    refine removeMessageFromConversation_found stored cid mid now conv _ h ?_
    have hfil : conv.messages.filter (fun msg => msg.id != mid) = conv.messages := by
      apply List.filter_eq_self.mpr
      intro m hm
      rw [bne_iff_ne]
      intro he
      exact hmid (he ▸ List.mem_map_of_mem Message.id hm)
    rw [hfil]

/-- C6 witness: the no-op branch on an empty store; an actual removal of
the message with matching id, persisted with a refreshed `updatedAt`; and
the absent-message-id branch refreshing `updatedAt` on a concrete store. -/
theorem C6_amended_remove_message_witness :
    removeMessageFromConversation ([] : List Conversation) "c1" "m1" 5 = (none, []) ∧
    removeMessageFromConversation
        [{ id := "c1", title := "t",
           messages := [{ id := "m0", content := "hi", role := .user, timestamp := 0 },
                        { id := "m1", content := "yo", role := .assistant, timestamp := 1 }],
           createdAt := 0, updatedAt := 0 }]
        "c1" "m0" 5
      = (some { id := "c1", title := "t",
                messages := [{ id := "m1", content := "yo", role := .assistant, timestamp := 1 }],
                createdAt := 0, updatedAt := 5 },
         [{ id := "c1", title := "t",
            messages := [{ id := "m1", content := "yo", role := .assistant, timestamp := 1 }],
            createdAt := 0, updatedAt := 5 }]) ∧
    removeMessageFromConversation
        [{ id := "c1", title := "t",
           messages := [{ id := "m0", content := "hi", role := .user, timestamp := 0 }],
           createdAt := 0, updatedAt := 0 }]
        "c1" "m1" 5
      = (some { id := "c1", title := "t",
                messages := [{ id := "m0", content := "hi", role := .user, timestamp := 0 }],
                createdAt := 0, updatedAt := 5 },
         [{ id := "c1", title := "t",
            messages := [{ id := "m0", content := "hi", role := .user, timestamp := 0 }],
            createdAt := 0, updatedAt := 5 }]) := by
  refine ⟨(C6_amended_remove_message [] "c1" "m1" 5).1 rfl, ?_, ?_⟩
  · exact (C6_amended_remove_message
      [{ id := "c1", title := "t",
         messages := [{ id := "m0", content := "hi", role := .user, timestamp := 0 },
                      { id := "m1", content := "yo", role := .assistant, timestamp := 1 }],
         createdAt := 0, updatedAt := 0 }]
      "c1" "m0" 5).2.1
      { id := "c1", title := "t",
        messages := [{ id := "m0", content := "hi", role := .user, timestamp := 0 },
                     { id := "m1", content := "yo", role := .assistant, timestamp := 1 }],
        createdAt := 0, updatedAt := 0 } rfl
  · exact (C6_amended_remove_message
      [{ id := "c1", title := "t",
         messages := [{ id := "m0", content := "hi", role := .user, timestamp := 0 }],
         createdAt := 0, updatedAt := 0 }]
      "c1" "m1" 5).2.2
      { id := "c1", title := "t",
        messages := [{ id := "m0", content := "hi", role := .user, timestamp := 0 }],
        createdAt := 0, updatedAt := 0 } rfl (by decide)

/-! ### Claim C7: write failures on the store -/

/-- C7 counterexample: a failing durable write on `updateConversation` sets
the error state, but the in-memory list does not reflect the attempted
mutation — it keeps its previous value. -/
theorem C7_counterexample :
    ((updateConversationStore
        { conversations := [{ id := "c1", title := "old", messages := [],
                              createdAt := 0, updatedAt := 0 }], error := none }
        [{ id := "c1", title := "old", messages := [], createdAt := 0, updatedAt := 0 }]
        { id := "c1", title := "new", messages := [], createdAt := 0, updatedAt := 1 }
        true "quota exceeded").1.conversations
      ≠ [{ id := "c1", title := "new", messages := [], createdAt := 0, updatedAt := 1 }]) ∧
    ((updateConversationStore
        { conversations := [{ id := "c1", title := "old", messages := [],
                              createdAt := 0, updatedAt := 0 }], error := none }
        [{ id := "c1", title := "old", messages := [], createdAt := 0, updatedAt := 0 }]
        { id := "c1", title := "new", messages := [], createdAt := 0, updatedAt := 1 }
        true "quota exceeded").1.error = some "quota exceeded") ∧
    ((updateConversationStore
        { conversations := [{ id := "c1", title := "old", messages := [],
                              createdAt := 0, updatedAt := 0 }], error := none }
        [{ id := "c1", title := "old", messages := [], createdAt := 0, updatedAt := 0 }]
        { id := "c1", title := "new", messages := [], createdAt := 0, updatedAt := 1 }
        true "quota exceeded").1.conversations
      = [{ id := "c1", title := "old", messages := [], createdAt := 0, updatedAt := 0 }]) := by
  decide

/-- C7 amended: when the durable write fails, the error is caught and
exposed through the store's error state while both the in-memory list and
the durable list keep their previous values; the in-memory list picks up
the mutation only when the write succeeds. -/
theorem C7_amended_write_failure (st : StoreState) (stored : List Conversation)
    (updatedConv : Conversation) (errMsg : String) :
    (updateConversationStore st stored updatedConv true errMsg).1.error = some errMsg ∧
    (updateConversationStore st stored updatedConv true errMsg).1.conversations
      = st.conversations ∧
    (updateConversationStore st stored updatedConv true errMsg).2 = stored ∧
    (updateConversationStore st stored updatedConv false errMsg).1.conversations
      = replaceById st.conversations updatedConv.id updatedConv ∧
    (updateConversationStore st stored updatedConv false errMsg).2
      = replaceById st.conversations updatedConv.id updatedConv :=
  ⟨rfl, rfl, rfl, rfl, rfl⟩

/-! ### Claim C8: conversation creation and title truncation -/

/-- C8 counterexample: the empty string is falsy in JavaScript, so
`createConversation("")` — an initial message whose length 0 is at most
50 — yields the default title `"New Conversation"`, not the message
itself. -/
theorem C8_counterexample :
    "".length ≤ 50 ∧ createTitle (some "") ≠ "" ∧
    createTitle (some "") = "New Conversation" := by
  decide

/-- C8 amended: for a present non-empty initial message the title is the
message itself when its length is at most 50, and otherwise the
47-character prefix followed by the three-dot ellipsis marker — 50
characters in all, the first 47 matching the input's prefix; an absent or
empty initial message yields the title "New Conversation", and the created
conversation always starts with an empty message list. -/
theorem C8_amended_create_title (s : String) (stored : List Conversation)
    (newId : String) (now : Int) :
    (s ≠ "" → s.length ≤ 50 → createTitle (some s) = s) ∧
    (s.length > 50 →
      createTitle (some s) = jsTake s 47 ++ "..." ∧
      (createTitle (some s)).length = 50 ∧
      (createTitle (some s)).data.take 47 = s.data.take 47) ∧
    createTitle none = "New Conversation" ∧
    (createConversation stored newId now none).1.title = "New Conversation" ∧
    (createConversation stored newId now none).1.messages = [] := by
  refine ⟨?_, ?_, rfl, rfl, rfl⟩
  · intro hne hle
    simp only [createTitle, if_neg hne]
    rw [if_neg (by omega)]
  · intro hgt
    have hne : s ≠ "" := by
      intro he
      rw [he] at hgt
      simp at hgt
    have hdata : 50 < s.data.length := hgt
    have hct : createTitle (some s) = jsTake s 47 ++ "..." := by
      simp only [createTitle, if_neg hne, if_pos hgt]
    rw [hct]
    refine ⟨rfl, ?_, ?_⟩
    · have h47 : (jsTake s 47).length = 47 := by
        show (s.data.take 47).length = 47
        rw [List.length_take]
        omega
      rw [String.length_append, h47]
      rfl
    · have happ : (jsTake s 47 ++ "...").data = s.data.take 47 ++ "...".data :=
        String.data_append ..
      rw [happ, List.take_append_of_le_length (by rw [List.length_take]; omega)]
      simp [List.take_take]

/-- C8 witness: a short title is kept verbatim; sixty `A`s truncate to a
50-character title. -/
theorem C8_amended_create_title_witness :
    createTitle (some "Hello") = "Hello" ∧
    (createTitle (some (String.mk (List.replicate 60 'A')))).length = 50 := by
  constructor
  · exact (C8_amended_create_title "Hello" [] "i" 0).1 (by decide) (by decide)
  · exact ((C8_amended_create_title (String.mk (List.replicate 60 'A')) [] "i" 0).2.1
      (by decide)).2.1

/-! ### Claim C9: serialization round-trip -/

theorem storedMessages_round_trip (codec : DateCodec) (msgs : List StoredMessage)
    (h : ∀ m ∈ msgs,
      codec.parse (codec.format (codec.parse m.timestamp)) = codec.parse m.timestamp) :
    List.Forall₂ (StoredMessage.valueEq codec)
      ((msgs.map (fun msg =>
          ({ id := msg.id, content := msg.content, role := msg.role,
             timestamp := codec.parse msg.timestamp } : Message))).map
        (fun msg =>
          ({ id := msg.id, content := msg.content, role := msg.role,
             timestamp := codec.format msg.timestamp } : StoredMessage))) msgs := by
  induction msgs with
  | nil => exact List.Forall₂.nil
  | cons m rest ih =>
    refine List.Forall₂.cons ⟨rfl, rfl, rfl, ?_⟩
      (ih fun x hx => h x (List.mem_cons_of_mem _ hx))
    exact h m (List.mem_cons_self _ _)

/-- C9: for every persisted conversation-list payload `X` whose date
strings survive one parse/format/parse cycle of the platform codec (true
of every valid payload under the JavaScript `Date` primitives at
millisecond precision), serializing the result of deserializing `X` yields
a payload value-equal to `X`: every plain field is reproduced verbatim and
every date-typed field compares equal after parse. -/
theorem C9_round_trip (codec : DateCodec) (X : List StoredConversation)
    (h : ∀ s ∈ payloadDateStrings X,
      codec.parse (codec.format (codec.parse s)) = codec.parse s) :
    payloadValueEq codec
      (transformConversationsForStorage codec (transformStoredConversations codec X)) X := by
  induction X with
  | nil => exact List.Forall₂.nil
  | cons conv rest ih =>
    simp only [payloadValueEq, transformStoredConversations,
      transformConversationsForStorage, List.map_cons]
    refine List.Forall₂.cons ?_ ?_
    · refine ⟨rfl, rfl, ?_, ?_, ?_⟩
      · exact h conv.createdAt (List.mem_append_left _ (List.mem_cons_self _ _))
      · exact h conv.updatedAt
          (List.mem_append_left _ (List.mem_cons_of_mem _ (List.mem_cons_self _ _)))
      · exact storedMessages_round_trip codec conv.messages (fun m hm =>
          h m.timestamp (List.mem_append_left _ (List.mem_cons_of_mem _
            (List.mem_cons_of_mem _ (List.mem_map_of_mem StoredMessage.timestamp hm)))))
    · have hrest := ih (fun s hs => h s (List.mem_append_right _ hs))
      simpa [payloadValueEq, transformStoredConversations,
        transformConversationsForStorage] using hrest

/-- C9 witness: the theorem applied to a concrete one-conversation payload
and a codec that trivially satisfies the parse/format/parse hypothesis. -/
theorem C9_round_trip_witness :
    payloadValueEq { parse := fun _ => 0, format := fun _ => "" }
      (transformConversationsForStorage { parse := fun _ => 0, format := fun _ => "" }
        (transformStoredConversations { parse := fun _ => 0, format := fun _ => "" }
          [{ id := "c", title := "t",
             messages := [{ id := "m", content := "x", role := .user,
                            timestamp := "1970-01-01T00:00:00.000Z" }],
             createdAt := "1970-01-01T00:00:00.000Z",
             updatedAt := "1970-01-01T00:00:01.000Z" }]))
      [{ id := "c", title := "t",
         messages := [{ id := "m", content := "x", role := .user,
                        timestamp := "1970-01-01T00:00:00.000Z" }],
         createdAt := "1970-01-01T00:00:00.000Z",
         updatedAt := "1970-01-01T00:00:01.000Z" }] :=
  C9_round_trip { parse := fun _ => 0, format := fun _ => "" }
    [{ id := "c", title := "t",
       messages := [{ id := "m", content := "x", role := .user,
                      timestamp := "1970-01-01T00:00:00.000Z" }],
       createdAt := "1970-01-01T00:00:00.000Z",
       updatedAt := "1970-01-01T00:00:01.000Z" }]
    (fun _ _ => rfl)

end Chatbot
